import Mathlib

/-!
Shallow embedding of the `mailer` package (SMTP / sendmail mail transports)
and proofs about its behaviour.

Modelling conventions:
* Go strings handled byte-wise by the source (the random-string generator)
  are modelled as `List UInt8`; strings handled as text are Lean `String`s.
* Go maps (`Headers`, `Attachments`) are modelled as association lists in
  iteration order.
* External I/O (the SMTP session itself, process execution, `exec.LookPath`)
  is modelled by explicit parameters; the functions below return the data the
  source hands to those collaborators.
-/

namespace Mailer

/-- Model of the process-wide pseudorandom source `mr` of deps.go
(`math/rand`): `intn i m` is the value returned by the i-th call to
`mr.Intn(m)`; Go guarantees the result lies in `[0, m)` for positive `m`. -/
structure Rng where
  intn : Nat → Nat → Nat
  intn_lt : ∀ i m, 0 < m → intn i m < m

/-- The default 62-symbol alphanumeric alphabet of deps.go, as its bytes. -/
def defaultRandomAlphabet : List UInt8 :=
  "ABCDEFGHIJKLMNOPQRSTUVWXYZabcdefghijklmnopqrstuvwxyz0123456789".data.map
    (fun c => UInt8.ofNat c.toNat)

/-- `PseudorandomStringWithAlphabet` of deps.go: a byte string of the given
length whose i-th byte is `alphabet[mr.Intn(len(alphabet))]` at the i-th
draw. -/
def PseudorandomStringWithAlphabet (rng : Rng) (length : Nat)
    (alphabet : List UInt8) : List UInt8 :=
  (List.range length).map (fun i => alphabet.getD (rng.intn i alphabet.length) 0)

/-- `PseudorandomString` of deps.go: the default-alphabet generator. -/
def PseudorandomString (rng : Rng) (length : Nat) : List UInt8 :=
  PseudorandomStringWithAlphabet rng length defaultRandomAlphabet

/-- Go `string(b)` on a byte slice of ASCII content: each byte is one
character. -/
def goString (bs : List UInt8) : String :=
  String.mk (bs.map (fun b => Char.ofNat b.toNat))

/-- The fields of `smtp.ServerInfo` (net/smtp) that `smtpLoginAuth.Start`
consults. -/
structure ServerInfo where
  Name : String
  TLS : Bool

/-- `smtpLoginAuth` of smtp.go: the LOGIN-mechanism credential pair. -/
structure smtpLoginAuth where
  username : String
  password : String

/-- `isLocalhost` of smtp.go. -/
def isLocalhost (name : String) : Bool :=
  name == "localhost" || name == "127.0.0.1" || name == "::1"

/-- `smtpLoginAuth.Start` of smtp.go: refuses a connection that is neither
TLS nor to localhost, otherwise returns the mechanism name "LOGIN" and a nil
initial payload. The receiver's credentials are not consulted. -/
def smtpLoginAuth.Start (_a : smtpLoginAuth) (server : ServerInfo) :
    Except String (String × List UInt8) :=
  if !server.TLS && !isLocalhost server.Name then
    .error "unencrypted connection"
  else
    .ok ("LOGIN", [])

/-- `smtpLoginAuth.Next` of smtp.go: answers a server challenge. The prompt
is lower-cased (Go `strings.ToLower`) and compared against the two known
prompts; everything else, and any challenge once the server wants no more
data, gets an empty answer. The error result is always nil. -/
def smtpLoginAuth.Next (a : smtpLoginAuth) (fromServer : String)
    (more : Bool) : Except String String :=
  if more then
    if fromServer.toLower == "username:" then .ok a.username
    else if fromServer.toLower == "password:" then .ok a.password
    else .ok ""
  else
    .ok ""

/-- A concrete deterministic random source, used to evaluate the model at
concrete inputs. -/
def rng0 : Rng := ⟨fun _ _ => 0, fun _ _ h => h⟩

/-- Modelled from the spec: the structured mail address of the data model,
`{ name: string (optional), address: string (required) }` — the repository's
Message/Address types are not among the staged files. -/
structure Address where
  name : String
  address : String
deriving DecidableEq

/-- Modelled from the spec: an Address renders as `"Name" <address>` when the
name is non-empty, else as the bare address (net/mail Address.String as the
spec describes it). -/
def Address.render (a : Address) : String :=
  if a.name = "" then a.address
  else "\"" ++ a.name ++ "\" <" ++ a.address ++ ">"

/-- Modelled from the spec: `addressesToStrings` (the repository helper, not
among the staged files) — each address is formatted with its display name
when `withName` is true and the name is non-empty, else as the bare address;
input order is preserved. -/
def addressesToStrings (addresses : List Address) (withName : Bool) :
    List String :=
  addresses.map (fun a => if withName && a.name != "" then a.render else a.address)

/-- Modelled from the spec: the Message of the data model. Go maps (headers,
attachments) are association lists in iteration order; attachment reader
contents are modelled as strings. Field names follow the Go source's uses
(`m.From`, `m.To`, ...). -/
structure Message where
  From : Address
  To : List Address
  Cc : List Address
  Bcc : List Address
  Subject : String
  HTML : String
  Text : String
  Attachments : List (String × String)
  Headers : List (String × String)
deriving DecidableEq

/-- `AddressConfig` of smtp.go. -/
structure AddressConfig where
  Name : String
  Address : String
deriving DecidableEq

/-- `SmtpClient` of smtp.go. `AuthMethod` is the `SmtpAuth` string. -/
structure SmtpClient where
  Host : String
  Port : Int
  Username : String
  Password : String
  Tls : Bool
  AuthMethod : String
  From : AddressConfig
deriving DecidableEq

/-- Go `strings.EqualFold`, restricted to letter-case folding: the strings
agree up to case. -/
def eqFold (a b : String) : Bool := a.toLower == b.toLower

/-- Go `strings.Split` with a single-character separator, over the string's
characters: empty parts are preserved and the result is never empty. -/
def goSplit (sep : Char) : List Char → List (List Char)
  | [] => [[]]
  | c :: rest =>
    if c = sep then [] :: goSplit sep rest
    else
      match goSplit sep rest with
      | [] => [[c]]
      | p :: ps => (c :: p) :: ps

/-- The mail under assembly: the model of the `mailyak` instance as the
record of the setter calls `SmtpClient.Send` makes on it. -/
structure Email where
  fromName : Option String
  fromAddr : String
  subject : String
  html : String
  plain : Option String
  toAddrs : List String
  ccAddrs : List String
  bccAddrs : List String
  attachments : List (String × String)
  headers : List (String × String)
deriving DecidableEq

/-- `SmtpClient.Send` of smtp.go, up to the external SMTP session: it first
completes the empty From fields from the configured default (Go mutates the
caller's Message through its pointer; the updated Message is the first
component of the result), then assembles the mail: from, subject, bodies,
recipient lists, attachments, the caller's headers in iteration order, and a
synthesized Message-ID when none was supplied and the from address splits at
"@" into exactly two parts. Authenticator choice, connection setup and
`yak.Send()` are external I/O and not part of the returned data. -/
def SmtpClient.Send (c : SmtpClient) (rng : Rng) (m : Message) :
    Message × Email :=
  let m1 : Message :=
    { m with From :=
        { name := if m.From.name = "" then c.From.Name else m.From.name
          address := if m.From.address = "" then c.From.Address else m.From.address } }
  let hasMessageId := m1.Headers.any (fun kv => eqFold kv.1 "Message-ID")
  let headers :=
    if !hasMessageId then
      let fromParts := goSplit '@' m1.From.address.data
      if fromParts.length = 2 then
        m1.Headers ++ [("Message-ID",
          "<" ++ goString (PseudorandomString rng 15) ++ "@" ++
            String.mk (fromParts.getD 1 []) ++ ">")]
      else m1.Headers
    else m1.Headers
  let email : Email :=
    { fromName := if m1.From.name ≠ "" then some m1.From.name else none
      fromAddr := m1.From.address
      subject := m1.Subject
      html := m1.HTML
      plain := if m1.Text ≠ "" then some m1.Text else none
      toAddrs := if 0 < m1.To.length then addressesToStrings m1.To true else []
      bccAddrs := if 0 < m1.Bcc.length then addressesToStrings m1.Bcc true else []
      ccAddrs := if 0 < m1.Cc.length then addressesToStrings m1.Cc true else []
      attachments := m1.Attachments
      headers := headers }
  (m1, email)

/-- A concrete SMTP transport configuration with no default from address. -/
def smtpCfg0 : SmtpClient :=
  { Host := "", Port := 0, Username := "", Password := "", Tls := false,
    AuthMethod := "", From := ⟨"", ""⟩ }

/-- A concrete message whose sole recipient carries a display name. -/
def msg0 : Message :=
  { From := ⟨"", "a@b.com"⟩, To := [⟨"Bob", "x@y.com"⟩], Cc := [], Bcc := [],
    Subject := "", HTML := "", Text := "", Attachments := [], Headers := [] }

/-- `SendMail` of the sendmail source file. -/
structure SendMail where
  CmdPath : String
deriving DecidableEq

/-- An invocation of the sendmail executable: the resolved command path, its
argument list and the bytes fed to its standard input. -/
structure ProcCall where
  path : String
  args : List String
  stdin : String
deriving DecidableEq

/-- Go `http.Header.Set` on the assembled header map: replaces any value
held under the key (the four keys `SendMail.Send` sets are already in
canonical form, so key canonicalization is the identity on them). -/
def headerSet (h : List (String × String)) (k v : String) :
    List (String × String) :=
  h.filter (fun kv => kv.1 != k) ++ [(k, v)]

/-- Insertion step of the key ordering `http.Header.Write` uses. -/
def insertByKey (kv : String × String) :
    List (String × String) → List (String × String)
  | [] => [kv]
  | x :: xs => if x.1 < kv.1 then x :: insertByKey kv xs else kv :: x :: xs

/-- The headers in ascending key order, as Go `http.Header.Write` emits
them. -/
def sortByKey : List (String × String) → List (String × String)
  | [] => []
  | x :: xs => insertByKey x (sortByKey xs)

/-- Modelled from the spec: the header-block serialization of the sendmail
transport (Go `http.Header.Write`, not among the staged files): `Name: value`
lines, CRLF-terminated; Go emits the keys in sorted order. -/
def headerWrite (h : List (String × String)) : String :=
  String.join ((sortByKey h).map (fun kv => kv.1 ++ ": " ++ kv.2 ++ "\r\n"))

/-- `SendMail.Send` of the sendmail source file, up to process execution:
formats the bare `To` recipients, sets the four headers Subject (through the
MIME Q-encoder `qenc`, Go `mime.QEncoding.Encode("utf-8", ·)`, an external
collaborator passed as a parameter), From (full rendered address),
Content-Type and To, then feeds header block + blank line + HTML body
(falling back to the plain-text body) to the executable, invoked with the
comma-joined recipient list as its sole argument. -/
def SendMail.Send (c : SendMail) (qenc : String → String) (m : Message) :
    ProcCall :=
  let toAddresses := addressesToStrings m.To false
  let headers :=
    headerSet (headerSet (headerSet (headerSet [] "Subject" (qenc m.Subject))
      "From" m.From.render) "Content-Type" "text/html; charset=UTF-8")
      "To" (String.intercalate "," toAddresses)
  let body := if m.HTML ≠ "" then m.HTML else m.Text
  { path := c.CmdPath
    args := [String.intercalate "," toAddresses]
    stdin := headerWrite headers ++ "\r\n" ++ body }

/-- The configuration surface the plugin consumes: `Has` for the two keys
`mailer.smtp` / `mailer.sendmail`, and each key's `UnmarshalKey` outcome. -/
structure Configurer where
  hasSmtp : Bool
  hasSendmail : Bool
  smtpDecode : Except String SmtpClient
  sendmailDecode : Except String SendMail

/-- The transport the plugin installs as the provided Mailer. -/
inductive MailerImpl where
  | smtp (client : SmtpClient)
  | sendmail (client : SendMail)
deriving DecidableEq

/-- The outcome of `Plugin.Init`: the Disabled error kind, an ordinary
error, or success with the installed mailer. -/
inductive InitResult where
  | disabled
  | failed (msg : String)
  | ok (mailer : MailerImpl)
deriving DecidableEq

/-- `sendmail` candidate locations, in the order `findSendmailPath` tries
them. -/
def sendmailOptions : List String :=
  ["/usr/sbin/sendmail", "/usr/bin/sendmail", "sendmail"]

/-- The loop of `findSendmailPath`: the first option `exec.LookPath` (the
external resolver, passed as `lookPath`) resolves. -/
def lookPathFirst (lookPath : String → Except String String) :
    List String → Except String String
  | [] => .error "failed to locate a sendmail executable path"
  | option :: rest =>
    match lookPath option with
    | .ok path => .ok path
    | .error _ => lookPathFirst lookPath rest

/-- `findSendmailPath` of the sendmail source file. -/
def findSendmailPath (lookPath : String → Except String String) :
    Except String String :=
  lookPathFirst lookPath sendmailOptions

/-- `Plugin.Init` of plugin.go: disabled when neither key is present;
otherwise decodes the smtp key when present (taking precedence), else the
sendmail key, resolving the executable path at init time — an empty
configured path through `findSendmailPath`, a non-empty one through
`exec.LookPath` directly. -/
def Plugin.Init (lookPath : String → Except String String)
    (cfg : Configurer) : InitResult :=
  if !cfg.hasSmtp && !cfg.hasSendmail then .disabled
  else if cfg.hasSmtp then
    match cfg.smtpDecode with
    | .error e => .failed e
    | .ok client => .ok (.smtp client)
  else if cfg.hasSendmail then
    match cfg.sendmailDecode with
    | .error e => .failed e
    | .ok sendMail =>
      if sendMail.CmdPath = "" then
        match findSendmailPath lookPath with
        | .error e => .failed e
        | .ok cmdPath => .ok (.sendmail { CmdPath := cmdPath })
      else
        match lookPath sendMail.CmdPath with
        | .error e => .failed e
        | .ok path => .ok (.sendmail { CmdPath := path })
  else .disabled

/-- A concrete resolver that fails every lookup. -/
def lookPathNone : String → Except String String :=
  fun _ => .error "not found"

/-- A concrete configuration carrying both the smtp and the sendmail key. -/
def cfgBoth : Configurer :=
  { hasSmtp := true
    hasSendmail := true
    smtpDecode := .ok ⟨"", 0, "", "", false, "", ⟨"", ""⟩⟩
    sendmailDecode := .ok ⟨""⟩ }

/-- Splitting on a separator yields one more part than the separator's
occurrence count. -/
theorem goSplit_length (sep : Char) (s : List Char) :
    (goSplit sep s).length = s.count sep + 1 := by
  induction s with
  | nil => simp [goSplit]
  | cons c rest ih =>
    by_cases h : c = sep
    · simp [goSplit, h, ih, List.count_cons]
    · simp only [goSplit, if_neg h]
      cases hg : goSplit sep rest with
      | nil => rw [hg] at ih; simp at ih
      | cons p ps =>
        rw [hg] at ih
        simp only [List.length_cons] at ih ⊢
        simp [List.count_cons, h, ← ih]

/-- `goString` preserves length. -/
theorem goString_length (bs : List UInt8) : (goString bs).length = bs.length := by
  simp [goString, String.length]

/-- The recipient-list guards of `SmtpClient.Send` are inessential: an empty
list formats to an empty list. -/
theorem addressesToStrings_guard (l : List Address) (w : Bool) :
    (if 0 < l.length then addressesToStrings l w else []) =
      addressesToStrings l w := by
  cases l <;> simp [addressesToStrings]

/-- Claim C1: `smtpLoginAuth.Start` errors exactly when the connection has no
TLS and the server name is none of "localhost", "127.0.0.1", "::1"; whenever
it does not error it returns the mechanism name "LOGIN" with an empty initial
payload. -/
theorem loginAuth_start_gate (a : smtpLoginAuth) (server : ServerInfo) :
    ((∃ e, a.Start server = .error e) ↔
      server.TLS = false ∧ server.Name ≠ "localhost" ∧
      server.Name ≠ "127.0.0.1" ∧ server.Name ≠ "::1") ∧
    (∀ mech payload, a.Start server = .ok (mech, payload) →
      mech = "LOGIN" ∧ payload = []) := by
  have hgate : (!server.TLS && !isLocalhost server.Name) = true ↔
      (server.TLS = false ∧ server.Name ≠ "localhost" ∧
        server.Name ≠ "127.0.0.1" ∧ server.Name ≠ "::1") := by
    simp [isLocalhost, not_or, and_assoc]
  by_cases hc : (!server.TLS && !isLocalhost server.Name) = true
  · have hstart : a.Start server = .error "unencrypted connection" := by
      unfold smtpLoginAuth.Start
      rw [if_pos hc]
    refine ⟨⟨fun _ => hgate.mp hc, fun _ => ⟨_, hstart⟩⟩, ?_⟩
    intro mech payload h
    rw [hstart] at h
    exact absurd h (by simp)
  · have hstart : a.Start server = .ok ("LOGIN", []) := by
      unfold smtpLoginAuth.Start
      rw [if_neg hc]
    refine ⟨⟨?_, fun hg => absurd (hgate.mpr hg) hc⟩, ?_⟩
    · intro ⟨e, he⟩
      rw [hstart] at he
      exact absurd he (by simp)
    · intro mech payload h
      rw [hstart] at h
      simp only [Except.ok.injEq, Prod.mk.injEq] at h
      exact ⟨h.1.symm, h.2.symm⟩

/-- Claim C2: `smtpLoginAuth.Next` answers the "username:" prompt (any letter
casing, while more data is wanted) with the username, the "password:" prompt
with the password, anything else — or any prompt once no more data is wanted —
with an empty response, and never errors. -/
theorem loginAuth_next_responses (a : smtpLoginAuth) (p : String)
    (more : Bool) :
    (more = true → p.toLower = "username:" → a.Next p more = .ok a.username) ∧
    (more = true → p.toLower = "password:" → a.Next p more = .ok a.password) ∧
    ((more = false ∨ (p.toLower ≠ "username:" ∧ p.toLower ≠ "password:")) →
      a.Next p more = .ok "") ∧
    (∃ r, a.Next p more = .ok r) := by
  unfold smtpLoginAuth.Next
  cases more with
  | false => simp
  | true =>
    refine ⟨fun _ h => by simp [h], fun _ h => ?_, fun h => ?_, ?_⟩
    · by_cases hu : p.toLower = "username:"
      · rw [hu] at h
        exact absurd h (by decide)
      · simp [hu, h]
    · rcases h with h | ⟨h1, h2⟩
      · exact absurd h (by simp)
      · simp [h1, h2]
    · by_cases hu : p.toLower = "username:"
      · exact ⟨a.username, by simp [hu]⟩
      · by_cases hp : p.toLower = "password:"
        · exact ⟨a.password, by simp [hu, hp]⟩
        · exact ⟨"", by simp [hu, hp]⟩

/-- Claim C8: the generator returns exactly `length` bytes, each drawn from
the (non-empty) alphabet; `PseudorandomString` is the same generator applied
to the default 62-symbol alphanumeric alphabet. -/
theorem pseudorandom_string_spec (rng : Rng) (n : Nat) (alphabet : List UInt8)
    (h : alphabet ≠ []) :
    (PseudorandomStringWithAlphabet rng n alphabet).length = n ∧
    (∀ b ∈ PseudorandomStringWithAlphabet rng n alphabet, b ∈ alphabet) ∧
    PseudorandomString rng n =
      PseudorandomStringWithAlphabet rng n defaultRandomAlphabet := by
  refine ⟨by simp [PseudorandomStringWithAlphabet], ?_, rfl⟩
  intro b hb
  simp only [PseudorandomStringWithAlphabet, List.mem_map, List.mem_range] at hb
  obtain ⟨i, _, hi⟩ := hb
  have hpos : 0 < alphabet.length := List.length_pos.mpr h
  have hlt : rng.intn i alphabet.length < alphabet.length :=
    rng.intn_lt i alphabet.length hpos
  rw [← hi, alphabet.getD_eq_getElem 0 hlt]
  exact alphabet.getElem_mem hlt

/-- Claim C8 witness: the generator evaluated at length 5 over the default
alphabet. -/
theorem pseudorandom_string_spec_witness :
    (PseudorandomStringWithAlphabet rng0 5 defaultRandomAlphabet).length = 5 :=
  (pseudorandom_string_spec rng0 5 defaultRandomAlphabet (by decide)).1

/-- Claim C3: `SmtpClient.Send` appends a synthesized Message-ID header,
`<` ++ 15-character generated id ++ `@` ++ domain ++ `>` with domain the part
after the "@", exactly when no supplied header key equals "Message-ID" up to
case and the effective from address splits at "@" into exactly two parts
(equivalently, holds exactly one "@"); in every other case the assembled
header list is exactly the supplied one. -/
theorem smtp_send_message_id (c : SmtpClient) (rng : Rng) (m : Message) :
    (∀ s : List Char, (goSplit '@' s).length = 2 ↔ s.count '@' = 1) ∧
    ((¬ ∃ kv ∈ m.Headers, eqFold kv.1 "Message-ID" = true) →
      (goSplit '@' (c.Send rng m).1.From.address.data).length = 2 →
      (c.Send rng m).2.headers = m.Headers ++ [("Message-ID",
        "<" ++ goString (PseudorandomString rng 15) ++ "@" ++
          String.mk ((goSplit '@' (c.Send rng m).1.From.address.data).getD 1 [])
          ++ ">")] ∧
      (goString (PseudorandomString rng 15)).length = 15) ∧
    ((∃ kv ∈ m.Headers, eqFold kv.1 "Message-ID" = true) →
      (c.Send rng m).2.headers = m.Headers) ∧
    ((goSplit '@' (c.Send rng m).1.From.address.data).length ≠ 2 →
      (c.Send rng m).2.headers = m.Headers) := by
  have hid : (goString (PseudorandomString rng 15)).length = 15 := by
    rw [goString_length]
    simp [PseudorandomString, PseudorandomStringWithAlphabet]
  have hany : (m.Headers.any (fun kv => eqFold kv.1 "Message-ID")) = true ↔
      ∃ kv ∈ m.Headers, eqFold kv.1 "Message-ID" = true := List.any_eq_true
  refine ⟨fun s => by rw [goSplit_length]; omega, ?_, ?_, ?_⟩
  · intro hno hlen
    have hfalse : (m.Headers.any (fun kv => eqFold kv.1 "Message-ID")) = false := by
      cases hb : m.Headers.any (fun kv => eqFold kv.1 "Message-ID")
      · rfl
      · exact absurd (hany.mp hb) hno
    refine ⟨?_, hid⟩
    simp only [SmtpClient.Send] at hlen ⊢
    simp [hfalse, hlen]
  · intro hyes
    have htrue : (m.Headers.any (fun kv => eqFold kv.1 "Message-ID")) = true :=
      hany.mpr hyes
    simp only [SmtpClient.Send]
    simp [htrue]
  · intro hlen
    simp only [SmtpClient.Send] at hlen ⊢
    by_cases hb : (m.Headers.any (fun kv => eqFold kv.1 "Message-ID")) = true
    · simp [hb]
    · simp only [Bool.not_eq_true] at hb
      simp [hb, hlen]

/-- Claim C4: the effective from of `SmtpClient.Send` keeps a non-empty
message-supplied name and address and falls back to the transport's
configured default exactly on the empty fields; the assembled mail carries
that effective address. -/
theorem smtp_send_from_completion (c : SmtpClient) (rng : Rng) (m : Message) :
    (m.From.name ≠ "" → (c.Send rng m).1.From.name = m.From.name) ∧
    (m.From.name = "" → (c.Send rng m).1.From.name = c.From.Name) ∧
    (m.From.address ≠ "" → (c.Send rng m).1.From.address = m.From.address) ∧
    (m.From.address = "" → (c.Send rng m).1.From.address = c.From.Address) ∧
    (c.Send rng m).2.fromAddr = (c.Send rng m).1.From.address := by
  refine ⟨fun h => ?_, fun h => ?_, fun h => ?_, fun h => ?_, ?_⟩ <;>
    simp only [SmtpClient.Send] <;> simp [h]

/-- Claim C5: `SmtpClient.Send` changes nothing of the caller's Message
except the from completion: every other field of the returned Message is the
input's, and the completed from is a function of this call's own message
from and the transport's configured default alone (the transport value `c`
itself is taken immutably, so no cross-call state exists). -/
theorem smtp_send_frame (c : SmtpClient) (rng : Rng) (m : Message) :
    (c.Send rng m).1.To = m.To ∧ (c.Send rng m).1.Cc = m.Cc ∧
    (c.Send rng m).1.Bcc = m.Bcc ∧ (c.Send rng m).1.Subject = m.Subject ∧
    (c.Send rng m).1.HTML = m.HTML ∧ (c.Send rng m).1.Text = m.Text ∧
    (c.Send rng m).1.Attachments = m.Attachments ∧
    (c.Send rng m).1.Headers = m.Headers ∧
    (∀ (c₂ : SmtpClient) (rng₂ : Rng) (m₂ : Message),
      m₂.From = m.From → c₂.From = c.From →
      (c₂.Send rng₂ m₂).1.From = (c.Send rng m).1.From) := by
  refine ⟨rfl, rfl, rfl, rfl, rfl, rfl, rfl, rfl, ?_⟩
  intro c₂ rng₂ m₂ hm hc
  simp only [SmtpClient.Send]
  rw [hm, hc]

/-- Claim C6 counterexample: a recipient with display name "Bob" reaches the
assembled recipient list in full rendered form, not as the bare address the
claim states. -/
theorem smtp_send_envelope_cex :
    (smtpCfg0.Send rng0 msg0).2.toAddrs = ["\"Bob\" <x@y.com>"] ∧
    (smtpCfg0.Send rng0 msg0).2.toAddrs ≠ ["x@y.com"] := by decide

/-- Claim C6 as amended: the envelope of `SmtpClient.Send` has the effective
from address as sender and the union of to, cc and bcc as recipients, each
recipient individually formatted with its display name included when
non-empty and as the bare address only when its display name is empty. -/
theorem smtp_send_envelope (c : SmtpClient) (rng : Rng) (m : Message) :
    (c.Send rng m).2.fromAddr = (c.Send rng m).1.From.address ∧
    (c.Send rng m).2.toAddrs ++ (c.Send rng m).2.ccAddrs ++
        (c.Send rng m).2.bccAddrs
      = addressesToStrings (m.To ++ m.Cc ++ m.Bcc) true ∧
    (∀ a ∈ m.To ++ m.Cc ++ m.Bcc, a.name = "" →
      a.address ∈ (c.Send rng m).2.toAddrs ++ (c.Send rng m).2.ccAddrs ++
        (c.Send rng m).2.bccAddrs) := by
  have hto : (c.Send rng m).2.toAddrs = addressesToStrings m.To true := by
    simp only [SmtpClient.Send]
    exact addressesToStrings_guard m.To true
  have hcc : (c.Send rng m).2.ccAddrs = addressesToStrings m.Cc true := by
    simp only [SmtpClient.Send]
    exact addressesToStrings_guard m.Cc true
  have hbcc : (c.Send rng m).2.bccAddrs = addressesToStrings m.Bcc true := by
    simp only [SmtpClient.Send]
    exact addressesToStrings_guard m.Bcc true
  have hunion : (c.Send rng m).2.toAddrs ++ (c.Send rng m).2.ccAddrs ++
      (c.Send rng m).2.bccAddrs = addressesToStrings (m.To ++ m.Cc ++ m.Bcc) true := by
    rw [hto, hcc, hbcc]
    simp [addressesToStrings]
  refine ⟨rfl, hunion, ?_⟩
  intro a ha hname
  rw [hunion]
  have : (if true && a.name != "" then a.render else a.address) = a.address := by
    simp [hname]
  exact this ▸ List.mem_map_of_mem _ ha

/-- Claim C7: the sendmail transport feeds the child process exactly the
four-header block (Content-Type, From with full rendered address, Q-encoded
Subject, comma-joined bare To list — keys in Go's sorted emission order) as
CRLF-terminated lines, a blank line, then the HTML body verbatim when
non-empty else the plain-text body verbatim, and invokes the resolved
executable with the comma-joined bare to-address list as its sole argument;
the invocation is determined solely by to, from, subject, html and text. -/
theorem sendmail_send_proc (c : SendMail) (qenc : String → String)
    (m : Message) :
    (SendMail.Send c qenc m).stdin =
      "Content-Type: text/html; charset=UTF-8\r\n" ++
      ("From: " ++ m.From.render ++ "\r\n") ++
      ("Subject: " ++ qenc m.Subject ++ "\r\n") ++
      ("To: " ++ String.intercalate "," (addressesToStrings m.To false)
        ++ "\r\n") ++
      "\r\n" ++ (if m.HTML ≠ "" then m.HTML else m.Text) ∧
    (SendMail.Send c qenc m).args =
      [String.intercalate "," (addressesToStrings m.To false)] ∧
    (SendMail.Send c qenc m).path = c.CmdPath ∧
    (∀ m₂ : Message, m₂.To = m.To → m₂.From = m.From →
      m₂.Subject = m.Subject → m₂.HTML = m.HTML → m₂.Text = m.Text →
      SendMail.Send c qenc m₂ = SendMail.Send c qenc m) := by
  refine ⟨?_, rfl, rfl, ?_⟩
  · apply String.ext
    simp +decide [SendMail.Send, headerWrite, headerSet, sortByKey,
      insertByKey, String.join, String.data_append]
  · intro m₂ h1 h2 h3 h4 h5
    simp only [SendMail.Send]
    rw [h1, h2, h3, h4, h5]

/-- Claim C9: `Plugin.Init` reports the Disabled condition exactly when
neither configuration key is present; with the sendmail transport selected,
the executable path is resolved at init time — an empty configured path by
trying /usr/sbin/sendmail, /usr/bin/sendmail, then bare sendmail in that
order, a non-empty one by a direct lookup — and any resolution failure fails
Init itself with that error. -/
theorem plugin_init_spec (lookPath : String → Except String String)
    (cfg : Configurer) :
    (Plugin.Init lookPath cfg = .disabled ↔
      cfg.hasSmtp = false ∧ cfg.hasSendmail = false) ∧
    (∀ sm : SendMail, cfg.hasSmtp = false → cfg.hasSendmail = true →
      cfg.sendmailDecode = .ok sm →
      (sm.CmdPath = "" →
        (∀ e, findSendmailPath lookPath = .error e →
          Plugin.Init lookPath cfg = .failed e) ∧
        (∀ p, findSendmailPath lookPath = .ok p →
          Plugin.Init lookPath cfg = .ok (.sendmail ⟨p⟩))) ∧
      (sm.CmdPath ≠ "" →
        (∀ e, lookPath sm.CmdPath = .error e →
          Plugin.Init lookPath cfg = .failed e) ∧
        (∀ p, lookPath sm.CmdPath = .ok p →
          Plugin.Init lookPath cfg = .ok (.sendmail ⟨p⟩)))) ∧
    (∀ p, lookPath "/usr/sbin/sendmail" = .ok p →
      findSendmailPath lookPath = .ok p) ∧
    (∀ e1 p, lookPath "/usr/sbin/sendmail" = .error e1 →
      lookPath "/usr/bin/sendmail" = .ok p →
      findSendmailPath lookPath = .ok p) ∧
    (∀ e1 e2 p, lookPath "/usr/sbin/sendmail" = .error e1 →
      lookPath "/usr/bin/sendmail" = .error e2 →
      lookPath "sendmail" = .ok p →
      findSendmailPath lookPath = .ok p) ∧
    (∀ e1 e2 e3, lookPath "/usr/sbin/sendmail" = .error e1 →
      lookPath "/usr/bin/sendmail" = .error e2 →
      lookPath "sendmail" = .error e3 →
      findSendmailPath lookPath =
        .error "failed to locate a sendmail executable path") := by
  refine ⟨?_, ?_, ?_, ?_, ?_, ?_⟩
  · cases hs : cfg.hasSmtp <;> cases hd : cfg.hasSendmail <;>
      simp only [Plugin.Init, hs, hd, Bool.not_true, Bool.not_false,
        Bool.and_true, Bool.and_false, Bool.true_and, Bool.false_and,
        if_true, if_false]
    · simp
    · rcases cfg.sendmailDecode with e | sm
      · simp
      · by_cases hp : sm.CmdPath = ""
        · rcases hv : findSendmailPath lookPath with e | p <;> simp [hp, hv]
        · rcases hv : lookPath sm.CmdPath with e | p <;> simp [hp, hv]
    · rcases cfg.smtpDecode with e | client <;> simp
    · rcases cfg.smtpDecode with e | client <;> simp
  · intro sm hs hd hdec
    constructor
    · intro hp
      constructor
      · intro e he
        simp [Plugin.Init, hs, hd, hdec, hp, he]
      · intro p hq
        simp [Plugin.Init, hs, hd, hdec, hp, hq]
    · intro hp
      constructor
      · intro e he
        simp [Plugin.Init, hs, hd, hdec, hp, he]
      · intro p hq
        simp [Plugin.Init, hs, hd, hdec, hp, hq]
  · intro p h
    simp [findSendmailPath, lookPathFirst, sendmailOptions, h]
  · intro e1 p h1 h2
    simp [findSendmailPath, lookPathFirst, sendmailOptions, h1, h2]
  · intro e1 e2 p h1 h2 h3
    simp [findSendmailPath, lookPathFirst, sendmailOptions, h1, h2, h3]
  · intro e1 e2 e3 h1 h2 h3
    simp [findSendmailPath, lookPathFirst, sendmailOptions, h1, h2, h3]

/-- Claim C10: with both configuration keys present the smtp branch takes
precedence: the outcome of `Plugin.Init` consults neither the sendmail
decode nor the path resolver, and a successful smtp decode installs exactly
the SMTP transport as the provided Mailer. -/
theorem plugin_smtp_precedence
    (lookPath lookPath₂ : String → Except String String)
    (cfg cfg₂ : Configurer)
    (h : cfg.hasSmtp = true) (h₂ : cfg₂.hasSmtp = true)
    (hdec : cfg.smtpDecode = cfg₂.smtpDecode) :
    Plugin.Init lookPath cfg = Plugin.Init lookPath₂ cfg₂ ∧
    (∀ client, cfg.smtpDecode = .ok client →
      Plugin.Init lookPath cfg = .ok (.smtp client)) := by
  constructor
  · simp [Plugin.Init, h, h₂, hdec]
  · intro client hcl
    simp [Plugin.Init, h, hcl]

/-- Claim C10 witness: both keys present with a successfully decoding smtp
configuration installs the SMTP transport. -/
theorem plugin_smtp_precedence_witness :
    Plugin.Init lookPathNone cfgBoth = Plugin.Init lookPathNone cfgBoth ∧
    (∀ client, cfgBoth.smtpDecode = .ok client →
      Plugin.Init lookPathNone cfgBoth = .ok (.smtp client)) :=
  plugin_smtp_precedence lookPathNone lookPathNone cfgBoth cfgBoth
    (by decide) (by decide) rfl

end Mailer
